import Mathlib

/-!
Verification of the AI Trading Insights backend (src/backend/app.py).

The development shallowly embeds the two core functions of the service,
`fetch_headlines` and `analyze_with_claude`, together with the `/analyze`
route that composes them.  Text is modelled as `List Char`; Python values
produced by `json.loads` are modelled by the inductive type `PyVal`;
fallible code returns `Except`.  The outbound HTTP calls (news API,
model API) are external collaborators and enter the model as explicit
outcome parameters (`NewsOutcome`, `ModelOutcome`); everything the
repository's own code does with those outcomes is embedded faithfully,
including Python `str.split`, `str.strip`, substring tests, `json.loads`
(strict CPython `json` grammar, with numbers kept as lexemes), dict
`.get` with defaults, truthiness tests, slicing and the dynamic-type
errors (`AttributeError`/`TypeError`) the interpreter would raise.
Error messages of external libraries are modelled structurally: each
error carries a message list, and the service error embeds it after the
source's literal f-string prefix.
-/

/-- Result of Python `json.loads`: `null`, booleans, numbers (kept as their
source lexeme, e.g. `-1.5e3`, `NaN`), strings, arrays and objects
(association lists in insertion order, later duplicate keys overwriting
in place, as CPython dicts do). -/
inductive PyVal where
  | null
  | bool (b : Bool)
  | num (lexeme : List Char)
  | str (chars : List Char)
  | arr (items : List PyVal)
  | obj (fields : List (List Char × PyVal))

/-- Python truthiness needs to know whether a numeric lexeme denotes zero:
all digits of the mantissa are `0` (and there is at least one digit, so
`NaN`/`Infinity` count as non-zero, as in Python). -/
def numIsZero (lexeme : List Char) : Bool :=
  let mantissa := lexeme.takeWhile (fun c => c != 'e' && c != 'E')
  mantissa.any (fun c => '0' ≤ c && c ≤ '9') &&
    mantissa.all (fun c => !('0' ≤ c && c ≤ '9') || c = '0')

/-- Python truthiness (`bool(x)`) on the values `json.loads` can produce. -/
def truthy : PyVal → Bool
  | .null => false
  | .bool b => b
  | .num lexeme => !numIsZero lexeme
  | .str s => !s.isEmpty
  | .arr items => !items.isEmpty
  | .obj fields => !fields.isEmpty

/-- Is the value a Python dict? Used in hypotheses about simulated inputs. -/
def isObj : PyVal → Bool
  | .obj _ => true
  | _ => false

/-- Association-list lookup, i.e. Python dict indexing. -/
def lookupField : List (List Char × PyVal) → List Char → Option PyVal
  | [], _ => none
  | (k, v) :: rest, key => if k = key then some v else lookupField rest key

/-- Dict insertion: overwrite in place if the key exists, append otherwise
(CPython dict semantics, relevant for duplicate keys in a JSON object). -/
def objInsert : List (List Char × PyVal) → List Char → PyVal → List (List Char × PyVal)
  | [], k, v => [(k, v)]
  | (k', v') :: rest, k, v =>
    if k' = k then (k', v) :: rest else (k', v') :: objInsert rest k v

/-- The six ASCII whitespace characters removed by Python `str.strip()`. -/
def isPySpace (c : Char) : Bool :=
  c = ' ' || c = '\t' || c = '\n' || c = '\r' || c = '\x0b' || c = '\x0c'

/-- Right strip: drop trailing whitespace. -/
def rstrip (s : List Char) : List Char :=
  (s.reverse.dropWhile isPySpace).reverse

/-- Python `str.strip()`: drop whitespace at both ends. -/
def pyStrip (s : List Char) : List Char :=
  (rstrip s).dropWhile isPySpace

/-- One step of rebuilding the current piece during a split: prepend a
character to the first piece of an already-computed split of the tail. -/
def consHead (c : Char) : List (List Char) → List (List Char)
  | [] => [[c]]
  | piece :: rest => (c :: piece) :: rest

/-- Fuelled scanner behind `pySplit`.  At each position, if the separator
starts here, close the current piece and continue after the separator;
otherwise the character joins the current piece.  Fuel only needs to cover
the input length. -/
def pySplitF (sep : List Char) : Nat → List Char → List (List Char)
  | 0, s => [s]
  | _ + 1, [] => [[]]
  | fuel + 1, c :: cs =>
    if sep.isPrefixOf (c :: cs) then
      [] :: pySplitF sep fuel ((c :: cs).drop sep.length)
    else
      consHead c (pySplitF sep fuel cs)

/-- Python `s.split(sep)` for a non-empty separator: the pieces between
non-overlapping, leftmost-first occurrences of `sep`. -/
def pySplit (sep s : List Char) : List (List Char) :=
  pySplitF sep s.length s

/-- Python `sep in s` substring test (for text `sep`, `s`). -/
def containsSeq (sep : List Char) : List Char → Bool
  | [] => sep.isEmpty
  | c :: cs => sep.isPrefixOf (c :: cs) || containsSeq sep cs

/-- The generic markdown fence marker the source splits on. -/
def fenceMarker : List Char := "```".toList

/-- The json markdown fence marker the source prefers. -/
def fenceMarkerJson : List Char := "```json".toList

/-- Lines 143-146 of app.py: unwrap a markdown-fenced model response.
If the text contains ```json, take what stands between that marker and
the next generic marker; otherwise, if it contains a generic marker, take
what stands between the first two; otherwise leave the text alone.  The
`getD` defaults are never reached: under the `containsSeq` guard the
split has at least two pieces. -/
def extractJson (s : List Char) : List Char :=
  if containsSeq fenceMarkerJson s then
    pyStrip ((pySplit fenceMarker ((pySplit fenceMarkerJson s).getD 1 [])).getD 0 [])
  else if containsSeq fenceMarker s then
    pyStrip ((pySplit fenceMarker ((pySplit fenceMarker s).getD 1 [])).getD 0 [])
  else
    s

/-! ## The CPython `json.loads` parser -/

/-- Message of the CPython decode error raised at a position where a JSON
value was expected (positions are not modelled). -/
def msgExpectingValue : List Char := "Expecting value".toList

/-- Message raised when text remains after one complete JSON document. -/
def msgExtraData : List Char := "Extra data".toList

/-- Message raised when a string is not closed before the input ends. -/
def msgUnterminatedString : List Char := "Unterminated string".toList

/-- Message raised on a backslash escape the grammar does not know. -/
def msgInvalidEscape : List Char := "Invalid escape".toList

/-- Message raised on an unescaped control character inside a string. -/
def msgInvalidControl : List Char := "Invalid control character".toList

/-- Message raised on a malformed uXXXX escape. -/
def msgInvalidUnicodeEscape : List Char := "Invalid uXXXX escape".toList

/-- Message raised when an object key is not a double-quoted string. -/
def msgExpectingName : List Char := "Expecting property name enclosed in double quotes".toList

/-- Message raised when a colon is missing after an object key. -/
def msgExpectingColon : List Char := "Expecting colon delimiter".toList

/-- Message raised when a comma or closing bracket is missing. -/
def msgExpectingComma : List Char := "Expecting comma delimiter".toList

/-- Fuel exhaustion marker; the fuel passed by `loadsE` is generous enough
that this is unreachable from it. -/
def msgFuel : List Char := "fuel exhausted".toList

/-- The four whitespace characters the JSON grammar skips. -/
def isJsonWs (c : Char) : Bool :=
  c = ' ' || c = '\t' || c = '\n' || c = '\r'

/-- Skip JSON whitespace. -/
def skipWs (s : List Char) : List Char := s.dropWhile isJsonWs

/-- ASCII decimal digit test. -/
def isDigitChar (c : Char) : Bool := '0' ≤ c && c ≤ '9'

/-- Hexadecimal digit value, both cases accepted. -/
def hexVal (c : Char) : Option Nat :=
  if '0' ≤ c ∧ c ≤ '9' then some (c.toNat - '0'.toNat)
  else if 'a' ≤ c ∧ c ≤ 'f' then some (c.toNat - 'a'.toNat + 10)
  else if 'A' ≤ c ∧ c ≤ 'F' then some (c.toNat - 'A'.toNat + 10)
  else none

/-- Read four hex digits, returning their value and the rest. -/
def hex4 : List Char → Option (Nat × List Char)
  | h1 :: h2 :: h3 :: h4 :: rest =>
    match hexVal h1, hexVal h2, hexVal h3, hexVal h4 with
    | some a, some b, some c, some d => some (((a * 16 + b) * 16 + c) * 16 + d, rest)
    | _, _, _, _ => none
  | _ => none

/-- Body of a JSON string after its opening quote, strict mode: control
characters below 0x20 must be escaped, the eight simple escapes and
uXXXX (with surrogate-pair combination) are recognised.  A code unit Lean
`Char` cannot carry (a lone surrogate) degrades to `Char.ofNat`'s
fallback; no claim exercises that corner.  Returns the decoded
characters and the text after the closing quote. -/
def parseStringBody : Nat → List Char → Except (List Char) (List Char × List Char)
  | 0, _ => .error msgFuel
  | _ + 1, [] => .error msgUnterminatedString
  | fuel + 1, c :: cs =>
    if c = '"' then .ok ([], cs)
    else if c = '\\' then
      match cs with
      | [] => .error msgUnterminatedString
      | e :: rest =>
        if e = 'u' then
          match hex4 rest with
          | none => .error msgInvalidUnicodeEscape
          | some (n, rest2) =>
            if 0xD800 ≤ n ∧ n ≤ 0xDBFF then
              match rest2 with
              | '\\' :: 'u' :: rest3 =>
                match hex4 rest3 with
                | some (m, rest4) =>
                  if 0xDC00 ≤ m ∧ m ≤ 0xDFFF then
                    (parseStringBody fuel rest4).map
                      (fun p => (Char.ofNat (0x10000 + (n - 0xD800) * 0x400 + (m - 0xDC00)) :: p.1, p.2))
                  else
                    (parseStringBody fuel rest2).map (fun p => (Char.ofNat n :: p.1, p.2))
                | none =>
                  (parseStringBody fuel rest2).map (fun p => (Char.ofNat n :: p.1, p.2))
              | _ =>
                (parseStringBody fuel rest2).map (fun p => (Char.ofNat n :: p.1, p.2))
            else
              (parseStringBody fuel rest2).map (fun p => (Char.ofNat n :: p.1, p.2))
        else
          match
            (if e = '"' then some '"'
             else if e = '\\' then some '\\'
             else if e = '/' then some '/'
             else if e = 'b' then some '\x08'
             else if e = 'f' then some '\x0c'
             else if e = 'n' then some '\n'
             else if e = 'r' then some '\r'
             else if e = 't' then some '\t'
             else none) with
          | some ch => (parseStringBody fuel rest).map (fun p => (ch :: p.1, p.2))
          | none => .error msgInvalidEscape
    else if c.toNat < 32 then .error msgInvalidControl
    else (parseStringBody fuel cs).map (fun p => (c :: p.1, p.2))

/-- Lex a JSON number, mirroring the CPython scanner regular expression
`(-?(0|[1-9]d*))(.d+)?([eE][+-]?d+)?`: an optional fraction or exponent
with no digit simply ends the number before it.  Returns the lexeme and
the rest, or `none` when no number starts here. -/
def lexNumber (s : List Char) : Option (List Char × List Char) :=
  let signAndRest : List Char × List Char :=
    match s with
    | '-' :: t => (['-'], t)
    | _ => ([], s)
  let sign := signAndRest.1
  let s1 := signAndRest.2
  let intPart : Option (List Char × List Char) :=
    match s1 with
    | '0' :: t => some (['0'], t)
    | c :: t =>
      if '1' ≤ c ∧ c ≤ '9' then
        some (c :: t.takeWhile isDigitChar, t.dropWhile isDigitChar)
      else none
    | [] => none
  match intPart with
  | none => none
  | some (ip, s2) =>
    let fracAndRest : List Char × List Char :=
      match s2 with
      | '.' :: t =>
        let ds := t.takeWhile isDigitChar
        if ds.isEmpty then ([], s2) else ('.' :: ds, t.dropWhile isDigitChar)
      | _ => ([], s2)
    let fr := fracAndRest.1
    let s3 := fracAndRest.2
    let expAndRest : List Char × List Char :=
      match s3 with
      | e :: t =>
        if e = 'e' ∨ e = 'E' then
          let sgnAndRest : List Char × List Char :=
            match t with
            | '+' :: u => (['+'], u)
            | '-' :: u => (['-'], u)
            | _ => ([], t)
          let ds := sgnAndRest.2.takeWhile isDigitChar
          if ds.isEmpty then ([], s3)
          else (e :: (sgnAndRest.1 ++ ds), sgnAndRest.2.dropWhile isDigitChar)
        else ([], s3)
      | [] => ([], s3)
    some (sign ++ ip ++ fr ++ expAndRest.1, expAndRest.2)

/-- State of the recursive-descent scanner: about to read a value, or
inside an array or object, with the elements read so far and whether we
stand right after the opening bracket (where `]`/`\x7d` may close it). -/
inductive PMode where
  | value (s : List Char)
  | arrItems (s : List Char) (acc : List PyVal) (first : Bool)
  | objItems (s : List Char) (acc : List (List Char × PyVal)) (first : Bool)

/-- The CPython scanner, one fuelled structural recursion so that closed
computations reduce in the kernel.  `NaN`, `Infinity` and `-Infinity` are
accepted, as by `json.loads` defaults. -/
def parseGo : Nat → PMode → Except (List Char) (PyVal × List Char)
  | 0, _ => .error msgFuel
  | fuel + 1, .value s =>
    match s with
    | [] => .error msgExpectingValue
    | c :: rest =>
      if c = '"' then
        (parseStringBody (rest.length + 1) rest).map (fun p => (.str p.1, p.2))
      else if c = '{' then parseGo fuel (.objItems (skipWs rest) [] true)
      else if c = '[' then parseGo fuel (.arrItems (skipWs rest) [] true)
      else if ("null".toList).isPrefixOf s then .ok (.null, s.drop 4)
      else if ("true".toList).isPrefixOf s then .ok (.bool true, s.drop 4)
      else if ("false".toList).isPrefixOf s then .ok (.bool false, s.drop 5)
      else
        match lexNumber s with
        | some (lx, r) => .ok (.num lx, r)
        | none =>
          if ("NaN".toList).isPrefixOf s then .ok (.num "NaN".toList, s.drop 3)
          else if ("Infinity".toList).isPrefixOf s then .ok (.num "Infinity".toList, s.drop 8)
          else if ("-Infinity".toList).isPrefixOf s then .ok (.num "-Infinity".toList, s.drop 9)
          else .error msgExpectingValue
  | fuel + 1, .arrItems s acc first =>
    match s, first with
    | ']' :: rest, true => .ok (.arr acc, rest)
    | _, _ =>
      match parseGo fuel (.value s) with
      | .error m => .error m
      | .ok (v, r) =>
        match skipWs r with
        | ',' :: r3 => parseGo fuel (.arrItems (skipWs r3) (acc ++ [v]) false)
        | ']' :: r3 => .ok (.arr (acc ++ [v]), r3)
        | _ => .error msgExpectingComma
  | fuel + 1, .objItems s acc first =>
    match s, first with
    | '}' :: rest, true => .ok (.obj acc, rest)
    | _, _ =>
      match s with
      | '"' :: rest =>
        match parseStringBody (rest.length + 1) rest with
        | .error m => .error m
        | .ok (key, r) =>
          match skipWs r with
          | ':' :: r3 =>
            match parseGo fuel (.value (skipWs r3)) with
            | .error m => .error m
            | .ok (v, r4) =>
              match skipWs r4 with
              | ',' :: r6 => parseGo fuel (.objItems (skipWs r6) (objInsert acc key v) false)
              | '}' :: r6 => .ok (.obj (objInsert acc key v), r6)
              | _ => .error msgExpectingComma
          | _ => .error msgExpectingColon
      | _ => .error msgExpectingName

/-- Fuel that covers any nesting the input length allows. -/
def jsonFuel (s : List Char) : Nat := 4 * s.length + 16

/-- Python `json.loads`: skip leading whitespace, read one value, and
demand that only whitespace follows. -/
def loadsE (s : List Char) : Except (List Char) PyVal :=
  match parseGo (jsonFuel s) (.value (skipWs s)) with
  | .error m => .error m
  | .ok (v, rest) => if (skipWs rest).isEmpty then .ok v else .error msgExtraData

/-! ## The service model -/

/-- The normalized headline record built by `fetch_headlines` (a Python
dict with keys title, description, url; the values are whatever the
article carried, hence `PyVal`). -/
structure Headline where
  title : PyVal
  description : PyVal
  url : PyVal

/-- An `HTTPException(status_code, detail)` raised by the service. -/
structure ServiceError where
  status : Nat
  detail : List Char

/-- Outcome of the outbound news request: the call raised (connection
error or timeout, with the exception text), or a response arrived with a
status code and a body. -/
inductive NewsOutcome where
  | failure (msg : List Char)
  | response (status : Nat) (body : List Char)

/-- Outcome of the model call: the call raised, or the first content
block of the reply holds this text. -/
inductive ModelOutcome where
  | apiError (msg : List Char)
  | reply (text : List Char)

/-- Key "title". -/
def titleKey : List Char := "title".toList

/-- Key "description". -/
def descriptionKey : List Char := "description".toList

/-- Key "url". -/
def urlKey : List Char := "url".toList

/-- Key "articles". -/
def articlesKey : List Char := "articles".toList

/-- The fixed two-item sample returned when no news credential is set
(app.py lines 44-55). -/
def sampleHeadlines : List Headline :=
  [ { title := .str "Apple Reports Record Q4 Earnings, Stock Surges".toList
    , description := .str "Apple Inc. announced record-breaking quarterly earnings, beating analyst expectations by 15%.".toList
    , url := .str "https://example.com/apple-earnings".toList }
  , { title := .str "Federal Reserve Hints at Rate Cuts in 2024".toList
    , description := .str "The Fed signals potential interest rate reductions, sparking market optimism.".toList
    , url := .str "https://example.com/fed-rates".toList } ]

/-- Fields of the fixed sample insight returned when no model credential
is set (app.py lines 93-102). -/
def sampleInsightFields : List (List Char × PyVal) :=
  [ ("headline".toList, .str "Apple Reports Record Q4 Earnings, Stock Surges".toList)
  , ("article_url".toList, .str "https://example.com/apple-earnings".toList)
  , ("stocks".toList, .arr [.str "AAPL".toList])
  , ("recommendation".toList, .str "Buy AAPL".toList)
  , ("rationale".toList, .str "Strong earnings beat suggests continued growth momentum and potential upside.".toList)
  , ("summary".toList, .str "Apple Inc. announced record-breaking quarterly earnings, beating analyst expectations by 15%. The company\x27s iPhone sales and services revenue both exceeded forecasts.".toList) ]

/-- The fixed one-item sample insight list. -/
def sampleInsights : PyVal := .arr [.obj sampleInsightFields]

/-- Literal f-string prefix of the fetch error detail (app.py line 84). -/
def fetchFailPrefix : List Char := "Failed to fetch headlines: ".toList

/-- Literal f-string prefix of the parse error detail (app.py line 157). -/
def parseFailPrefix : List Char := "Failed to parse Claude response as JSON: ".toList

/-- Literal f-string prefix of the generic analysis error detail
(app.py line 159). -/
def claudeFailPrefix : List Char := "Claude analysis failed: ".toList

/-- Modelled text of the `requests.HTTPError` that `raise_for_status`
raises for a 4xx or 5xx code (its exact rendering is a library detail;
only that it is a function of the status matters here). -/
def raiseForStatusMsg (status : Nat) : List Char :=
  Nat.toDigits 10 status ++ " Error for url: https://newsapi.org/v2/everything".toList

/-- Modelled text of the AttributeError raised when `.get` is taken on a
non-dict article. -/
def msgAttrGet : List Char := "object has no attribute get".toList

/-- Modelled text of the TypeError raised when the articles value cannot
be sliced (e.g. a dict or a number). -/
def msgBadArticles : List Char := "articles value does not support slicing".toList

/-- Modelled text of the TypeError raised when the parsed insights value
cannot be sliced by the final truncation. -/
def msgNotSubscriptable : List Char := "object is not subscriptable".toList

/-- The dict literal built for one qualifying article (app.py 76-80):
each field is `article.get(key, "")`. -/
def mkHeadline (fs : List (List Char × PyVal)) : Headline :=
  { title := (lookupField fs titleKey).getD (.str [])
  , description := (lookupField fs descriptionKey).getD (.str [])
  , url := (lookupField fs urlKey).getD (.str []) }

/-- The guard on line 75: `article.get("title") and article.get("url")`,
Python truthiness of the defaulted-to-None lookups. -/
def articleQualifies (fs : List (List Char × PyVal)) : Bool :=
  truthy ((lookupField fs titleKey).getD .null) && truthy ((lookupField fs urlKey).getD .null)

/-- The extraction loop (app.py 74-80) over the already-truncated article
list.  A non-dict article raises AttributeError at its first `.get`. -/
def buildHeadlines : List PyVal → Except (List Char) (List Headline)
  | [] => .ok []
  | .obj fs :: rest =>
    if articleQualifies fs then
      (buildHeadlines rest).map (fun hs => mkHeadline fs :: hs)
    else buildHeadlines rest
  | _ :: _ => .error msgAttrGet

/-- `articles[:15]` followed by the loop: a list is truncated and walked;
a string slices fine but its characters fail `.get` (unless empty, when
the loop body never runs); anything else fails the slice itself. -/
def processArticles : PyVal → Except (List Char) (List Headline)
  | .arr items => buildHeadlines (items.take 15)
  | .str cs => if (cs.take 15).isEmpty then .ok [] else .error msgAttrGet
  | _ => .error msgBadArticles

/-- Python `value.get(key, default)`: AttributeError unless a dict. -/
def pyDictGetD (v : PyVal) (key : List Char) (dflt : PyVal) : Except (List Char) PyVal :=
  match v with
  | .obj fs => .ok ((lookupField fs key).getD dflt)
  | _ => .error msgAttrGet

/-- Body of the `try` block of `fetch_headlines` (app.py 57-82): the
request itself, `raise_for_status` (which raises exactly for status
400-599), `response.json()`, `data.get("articles", [])`, truncation,
filtering and mapping.  Any raised message lands in the except clause. -/
def fetchCore (net : NewsOutcome) : Except (List Char) (List Headline) :=
  match net with
  | .failure m => .error m
  | .response status body =>
    if 400 ≤ status ∧ status < 600 then .error (raiseForStatusMsg status)
    else
      match loadsE body with
      | .error m => .error m
      | .ok data =>
        match pyDictGetD data articlesKey (.arr []) with
        | .error m => .error m
        | .ok arts => processArticles arts

/-- `fetch_headlines` (app.py 37-84): sample mode when the key is empty,
otherwise the core with every exception mapped to a 500 whose detail
embeds the message after the literal prefix. -/
def fetch_headlines (newsApiKey : List Char) (net : NewsOutcome) :
    Except ServiceError (List Headline) :=
  if newsApiKey.isEmpty then .ok sampleHeadlines
  else
    match fetchCore net with
    | .ok hs => .ok hs
    | .error m => .error ⟨500, fetchFailPrefix ++ m⟩

/-- Lines 151-154: a dict is wrapped into a one-element list, then
`insights[:5]` truncates — list slicing for lists, string slicing for
strings, TypeError for anything else. -/
def ensureListThenTruncate (v : PyVal) : Except (List Char) PyVal :=
  let v' := match v with
    | .obj fs => PyVal.arr [PyVal.obj fs]
    | x => x
  match v' with
  | .arr items => .ok (.arr (items.take 5))
  | .str cs => .ok (.str (cs.take 5))
  | _ => .error msgNotSubscriptable

/-- `analyze_with_claude` (app.py 87-159): sample mode when the key is
empty; otherwise the model call outcome is processed: the reply text is
stripped (line 138), unfenced (143-146), parsed (148) with a parse
failure mapped to the JSON-decode 500, and shaped (151-154) with any
other failure mapped to the generic analysis 500; a failed call maps to
the generic analysis 500 as well.  The headline list only feeds the
prompt of the external call, so it does not influence the result. -/
def analyze_with_claude (anthropicApiKey : List Char) (outcome : ModelOutcome)
    (_headlines : List Headline) : Except ServiceError PyVal :=
  if anthropicApiKey.isEmpty then .ok sampleInsights
  else
    match outcome with
    | .apiError m => .error ⟨500, claudeFailPrefix ++ m⟩
    | .reply text =>
      match loadsE (extractJson (pyStrip text)) with
      | .error m => .error ⟨500, parseFailPrefix ++ m⟩
      | .ok v =>
        match ensureListThenTruncate v with
        | .ok r => .ok r
        | .error m => .error ⟨500, claudeFailPrefix ++ m⟩

/-- The `POST /analyze` handler (app.py 168-189): fetch, return `[]` when
the list is falsy, otherwise analyze; `HTTPException`s propagate. -/
def analyzeRoute (newsApiKey anthropicApiKey : List Char) (net : NewsOutcome)
    (outcome : ModelOutcome) : Except ServiceError PyVal :=
  match fetch_headlines newsApiKey net with
  | .error e => .error e
  | .ok hs =>
    if hs.isEmpty then .ok (.arr [])
    else analyze_with_claude anthropicApiKey outcome hs

/-! ## Claim-side (specification) definitions, for refinement statements -/

/-- Spec-side reading of one qualifying article: both title and url are
present, are strings, and are non-empty (claim C2's phrasing). -/
def hasNonemptyTitleUrl : PyVal → Bool
  | .obj fs =>
    (match lookupField fs titleKey with
     | some (.str s) => !s.isEmpty
     | _ => false) &&
    (match lookupField fs urlKey with
     | some (.str s) => !s.isEmpty
     | _ => false)
  | _ => false

/-- Whether title and url fields, when present, are strings.  Under this
hypothesis the code's truthiness guard coincides with the spec-side
non-empty-string reading. -/
def articleFieldsStrOrAbsent : PyVal → Bool
  | .obj fs =>
    (match lookupField fs titleKey with
     | none => true
     | some (.str _) => true
     | some _ => false) &&
    (match lookupField fs urlKey with
     | none => true
     | some (.str _) => true
     | some _ => false)
  | _ => false

/-- Total headline image of an article, for the spec-side map. -/
def headlineOf : PyVal → Headline
  | .obj fs => mkHeadline fs
  | _ => { title := .null, description := .null, url := .null }

/-- The spec-side description of the fetch result: truncate to 15, filter
to non-empty title and url, map to headline records. -/
def specHeadlines (arts : List PyVal) : List Headline :=
  ((arts.take 15).filter hasNonemptyTitleUrl).map headlineOf

/-- The wrapped presentation forms of claim C1. -/
def wrapJsonFence (payload : List Char) : List Char :=
  "```json\n".toList ++ payload ++ "\n```".toList

/-- The generic-fence presentation form of claim C1. -/
def wrapPlainFence (payload : List Char) : List Char :=
  "```\n".toList ++ payload ++ "\n```".toList

/-! ## Concrete inputs used by witnesses and counterexamples -/

/-- A response body whose articles list is empty. -/
def emptyArticlesBody : List Char := "\x7b\"articles\": []\x7d".toList

/-- The C1 counterexample payload: a valid JSON array one of whose strings
contains a generic fence marker. -/
def cexPayloadC1 : List Char := "[\"a\", \"``` [1, 2] ```\", \"b\"]".toList

/-- Articles of the C2 witness body: one qualifying, one with an empty
title, one with no title or url at all. -/
def artsC2 : List PyVal :=
  [ .obj [(titleKey, .str "t1".toList), (urlKey, .str "u1".toList)]
  , .obj [(titleKey, .str []), (urlKey, .str "u2".toList)]
  , .obj [(descriptionKey, .str "d".toList)] ]

/-- Parsed fields of the C2 witness body. -/
def fieldsC2 : List (List Char × PyVal) := [(articlesKey, PyVal.arr artsC2)]

/-- The C2 witness body itself. -/
def bodyC2 : List Char :=
  "\x7b\"articles\": [\x7b\"title\": \"t1\", \"url\": \"u1\"\x7d, \x7b\"title\": \"\", \"url\": \"u2\"\x7d, \x7b\"description\": \"d\"\x7d]\x7d".toList

/-- A model reply holding a JSON array of six empty objects. -/
def arrSixObjs : List Char :=
  "[\x7b\x7d, \x7b\x7d, \x7b\x7d, \x7b\x7d, \x7b\x7d, \x7b\x7d]".toList

/-- The six parsed empty objects. -/
def sixEmptyObjs : List PyVal :=
  [.obj [], .obj [], .obj [], .obj [], .obj [], .obj []]

/-- A model reply that is a JSON string literal. -/
def strLiteralReply : List Char := "\"hello world\"".toList

/-- A news body whose only article has a JSON-null description. -/
def bodyC7 : List Char :=
  "\x7b\"articles\": [\x7b\"title\": \"t\", \"url\": \"u\", \"description\": null\x7d]\x7d".toList

/-! ## Helper lemmas: the split scanner -/

theorem pySplitF_fuelInv (sep : List Char) (hsep : sep ≠ []) :
    ∀ f₁ f₂ s, s.length ≤ f₁ → s.length ≤ f₂ →
      pySplitF sep f₁ s = pySplitF sep f₂ s := by
  intro f₁
  induction f₁ with
  | zero =>
    intro f₂ s h1 _
    have hs : s = [] := List.length_eq_zero.mp (Nat.le_zero.mp h1)
    subst hs
    cases f₂ <;> rfl
  | succ f ih =>
    intro f₂ s h1 h2
    cases s with
    | nil => cases f₂ <;> rfl
    | cons c cs =>
      cases f₂ with
      | zero => simp at h2
      | succ f₂' =>
        have hseplen : 0 < sep.length := List.length_pos.mpr hsep
        simp only [pySplitF]
        by_cases hp : sep.isPrefixOf (c :: cs) = true
        · rw [if_pos hp, if_pos hp]
          congr 1
          apply ih
          · simp only [List.length_drop, List.length_cons]
            simp only [List.length_cons] at h1
            omega
          · simp only [List.length_drop, List.length_cons]
            simp only [List.length_cons] at h2
            omega
        · rw [if_neg hp, if_neg hp]
          congr 1
          apply ih
          · simp only [List.length_cons] at h1
            omega
          · simp only [List.length_cons] at h2
            omega

theorem pySplit_append_sep (sep : List Char) (hsep : sep ≠ []) (t : List Char) :
    pySplit sep (sep ++ t) = [] :: pySplit sep t := by
  obtain ⟨c, cs, rfl⟩ := List.exists_cons_of_ne_nil hsep
  show pySplitF (c :: cs) ((cs ++ t).length + 1) (c :: (cs ++ t)) = [] :: pySplit (c :: cs) t
  have hpre : (c :: cs).isPrefixOf (c :: (cs ++ t)) = true := by
    rw [ List.isPrefixOf_iff_prefix]
    exact List.prefix_append (c :: cs) t
  simp only [pySplitF, if_pos hpre]
  have hdrop : (c :: (cs ++ t)).drop ((c :: cs).length) = t := by
    simp only [List.length_cons, List.drop_succ_cons]
    exact List.drop_left cs t
  rw [hdrop]
  congr 1
  apply pySplitF_fuelInv (c :: cs) (by simp)
  · simp
  · exact Nat.le_refl _

theorem pySplit_no_sep (sep s : List Char) (h : ¬ sep <:+: s) :
    pySplit sep s = [s] := by
  induction s with
  | nil => rfl
  | cons c cs ih =>
    have hpre : ¬ sep.isPrefixOf (c :: cs) = true := by
      intro hp
      exact h (List.IsPrefix.isInfix ( List.isPrefixOf_iff_prefix.mp hp))
    show pySplitF sep (cs.length + 1) (c :: cs) = [c :: cs]
    simp only [pySplitF, if_neg hpre]
    have hrec : pySplitF sep cs.length cs = [cs] :=
      ih (fun hinf => h (List.infix_cons_iff.mpr (Or.inr hinf)))
    rw [hrec]
    rfl

theorem pySplit_mid (sep : List Char) (hsep : sep ≠ []) (a t : List Char)
    (ha : ¬ sep <:+: (a ++ sep.dropLast)) :
    pySplit sep (a ++ sep ++ t) = a :: pySplit sep t := by
  induction a with
  | nil => simpa using pySplit_append_sep sep hsep t
  | cons c a' ih =>
    have hpre : ¬ sep.isPrefixOf (c :: (a' ++ sep ++ t)) = true := by
      intro hp
      have hp' : sep <+: (c :: a') ++ (sep ++ t) := by
        rw [ List.isPrefixOf_iff_prefix] at hp
        simpa [List.append_assoc] using hp
      have hwhole : (c :: a') ++ (sep ++ t) =
          ((c :: a') ++ sep.dropLast) ++ (sep.getLast hsep :: t) := by
        conv_lhs => rw [← List.dropLast_append_getLast hsep]
        simp [List.append_assoc]
      have h1 : ((c :: a') ++ sep.dropLast) <+: (c :: a') ++ (sep ++ t) := by
        rw [hwhole]
        exact List.prefix_append _ _
      have hlen : sep.length ≤ ((c :: a') ++ sep.dropLast).length := by
        have : 0 < sep.length := List.length_pos.mpr hsep
        simp only [List.length_append, List.length_cons, List.length_dropLast]
        omega
      exact ha (List.IsPrefix.isInfix (List.prefix_of_prefix_length_le hp' h1 hlen))
    have ha' : ¬ sep <:+: (a' ++ sep.dropLast) := by
      intro hinf
      exact ha (List.infix_cons_iff.mpr (Or.inr hinf))
    show pySplitF sep ((a' ++ sep ++ t).length + 1) (c :: (a' ++ sep ++ t)) = _
    simp only [pySplitF, if_neg hpre]
    have hrec : pySplitF sep (a' ++ sep ++ t).length (a' ++ sep ++ t) =
        a' :: pySplit sep t := ih ha'
    rw [hrec]
    rfl

/-! ## Helper lemmas: occurrence analysis -/

theorem not_infix_cons_of (sep : List Char) (c : Char) (l : List Char)
    (h1 : ¬ sep <+: (c :: l)) (h2 : ¬ sep <:+: l) : ¬ sep <:+: (c :: l) := by
  intro hinf
  rcases List.infix_cons_iff.mp hinf with hp | hi
  · exact h1 hp
  · exact h2 hi

theorem not_infix_append (sep P tail : List Char)
    (hsep : fenceMarker <+: sep)
    (htail : ¬ sep <:+: tail)
    (hspan : ∀ k < sep.length, 0 < k → ¬ (sep.drop k <+: tail)) :
    ¬ fenceMarker <:+: P → ¬ sep <:+: (P ++ tail) := by
  induction P with
  | nil => intro _; simpa using htail
  | cons c P' ih =>
    intro hP hinf
    rw [List.cons_append] at hinf
    rcases List.infix_cons_iff.mp hinf with hp | hi
    · by_cases hlen : sep.length ≤ (c :: P').length
      · have h1 : sep <+: (c :: P') := by
          apply List.prefix_of_prefix_length_le hp _ hlen
          rw [← List.cons_append]
          exact List.prefix_append (c :: P') tail
        exact hP (List.IsPrefix.isInfix (hsep.trans h1))
      · push_neg at hlen
        have h2 : (c :: P') <+: sep := by
          apply List.prefix_of_prefix_length_le _ hp (by omega)
          rw [← List.cons_append]
          exact List.prefix_append (c :: P') tail
        obtain ⟨r, hr⟩ := h2
        obtain ⟨u, hu⟩ := hp
        rw [← hr, List.append_assoc] at hu
        have hru : r ++ u = tail := by
          have := List.append_cancel_left (hu.trans (List.cons_append c P' tail).symm)
          exact this
        have hk := hspan (c :: P').length (by omega) (by simp)
        rw [← hr, List.drop_left] at hk
        exact hk ⟨u, hru⟩
    · exact ih (fun h => hP (List.infix_cons_iff.mpr (Or.inr h))) hi

theorem containsSeq_iff (sep s : List Char) : containsSeq sep s = true ↔ sep <:+: s := by
  induction s with
  | nil => simp [containsSeq, List.infix_nil, List.isEmpty_iff]
  | cons c cs ih => simp [containsSeq, ih, List.infix_cons_iff]

/-! ## Helper lemmas: stripping -/

theorem pyStrip_within (s : List Char) : pyStrip s <:+: s := by
  have h1 : rstrip s <+: s := by
    have h0 := List.dropWhile_suffix (l := s.reverse) isPySpace
    have h2 := List.reverse_prefix.mpr h0
    simpa [rstrip] using h2
  have h3 : pyStrip s <:+ rstrip s := List.dropWhile_suffix isPySpace
  exact (List.IsSuffix.isInfix h3).trans (List.IsPrefix.isInfix h1)

theorem pyStrip_tick_ends (mid : List Char) :
    pyStrip ('\x60' :: (mid ++ ['\x60'])) = '\x60' :: (mid ++ ['\x60']) := by
  have htick : isPySpace '\x60' = false := rfl
  have hrev : ('\x60' :: (mid ++ ['\x60'])).reverse = '\x60' :: (mid.reverse ++ ['\x60']) := by
    simp
  unfold pyStrip rstrip
  rw [hrev, List.dropWhile_cons_of_neg (by simp [htick])]
  rw [show ('\x60' :: (mid.reverse ++ ['\x60'])).reverse = '\x60' :: (mid ++ ['\x60']) by simp]
  rw [List.dropWhile_cons_of_neg (by simp [htick])]

theorem pyStrip_nl_ends (P : List Char) :
    pyStrip ('\n' :: (P ++ ['\n'])) = pyStrip P := by
  have hnl : isPySpace '\n' = true := rfl
  unfold pyStrip rstrip
  have hrev : ('\n' :: (P ++ ['\n'])).reverse = '\n' :: (P.reverse ++ ['\n']) := by
    simp
  rw [hrev, List.dropWhile_cons_of_pos (by simp [hnl]), List.dropWhile_append]
  by_cases hd : (P.reverse.dropWhile isPySpace).isEmpty = true
  · rw [if_pos hd, List.isEmpty_iff.mp hd]
    rfl
  · rw [if_neg hd, List.reverse_append]
    simp [List.dropWhile_cons_of_pos, hnl]

/-! ## Helper lemmas: where the fence markers can occur -/

theorem fence_not_prefix_nl (l : List Char) : ¬ fenceMarker <+: ('\n' :: l) := by
  intro h
  rw [show fenceMarker = '\x60' :: "``".toList from rfl, List.cons_prefix_cons] at h
  exact absurd h.1 (by decide)

theorem fenceJson_not_prefix_nl (l : List Char) : ¬ fenceMarkerJson <+: ('\n' :: l) := by
  intro h
  rw [show fenceMarkerJson = '\x60' :: "``json".toList from rfl, List.cons_prefix_cons] at h
  exact absurd h.1 (by decide)

theorem fenceJson_not_prefix_t1 (l : List Char) :
    ¬ fenceMarkerJson <+: ('\x60' :: '\n' :: l) := by
  intro h
  rw [show fenceMarkerJson = '\x60' :: '\x60' :: "`json".toList from rfl,
    List.cons_prefix_cons] at h
  rw [List.cons_prefix_cons] at h
  exact absurd h.2.1 (by decide)

theorem fenceJson_not_prefix_t2 (l : List Char) :
    ¬ fenceMarkerJson <+: ('\x60' :: '\x60' :: '\n' :: l) := by
  intro h
  rw [show fenceMarkerJson = '\x60' :: '\x60' :: '\x60' :: "json".toList from rfl,
    List.cons_prefix_cons] at h
  rw [List.cons_prefix_cons] at h
  rw [List.cons_prefix_cons] at h
  exact absurd h.2.2.1 (by decide)

theorem fenceJson_not_prefix_t3 (l : List Char) :
    ¬ fenceMarkerJson <+: ('\x60' :: '\x60' :: '\x60' :: '\n' :: l) := by
  intro h
  rw [show fenceMarkerJson = '\x60' :: '\x60' :: '\x60' :: 'j' :: "son".toList from rfl,
    List.cons_prefix_cons] at h
  rw [List.cons_prefix_cons] at h
  rw [List.cons_prefix_cons] at h
  rw [List.cons_prefix_cons] at h
  exact absurd h.2.2.2.1 (by decide)

theorem no_fence_in_nl (P : List Char) (hP : ¬ fenceMarker <:+: P) :
    ¬ fenceMarker <:+: (P ++ ['\n']) :=
  not_infix_append fenceMarker P ['\n'] (by decide) (by decide) (by decide) hP

theorem no_fence_in_nlgg (P : List Char) (hP : ¬ fenceMarker <:+: P) :
    ¬ fenceMarker <:+: (P ++ ['\n', '\x60', '\x60']) :=
  not_infix_append fenceMarker P ['\n', '\x60', '\x60'] (by decide) (by decide) (by decide) hP

theorem no_fenceJson_in_tail (P : List Char) (hP : ¬ fenceMarker <:+: P) :
    ¬ fenceMarkerJson <:+: (P ++ "\n```".toList) :=
  not_infix_append fenceMarkerJson P "\n```".toList (by decide) (by decide) (by decide) hP

theorem no_fenceJson_in_rest1 (P : List Char) (hP : ¬ fenceMarker <:+: P) :
    ¬ fenceMarkerJson <:+: ('\n' :: (P ++ "\n```".toList)) :=
  not_infix_cons_of fenceMarkerJson '\n' _ (fenceJson_not_prefix_nl _)
    (no_fenceJson_in_tail P hP)

theorem no_fence_in_a2 (P : List Char) (hP : ¬ fenceMarker <:+: P) :
    ¬ fenceMarker <:+: ('\n' :: (P ++ ['\n'])) :=
  not_infix_cons_of fenceMarker '\n' _ (fence_not_prefix_nl _) (no_fence_in_nl P hP)

theorem no_fence_in_a2gg (P : List Char) (hP : ¬ fenceMarker <:+: P) :
    ¬ fenceMarker <:+: (('\n' :: (P ++ ['\n'])) ++ fenceMarker.dropLast) := by
  have h := not_infix_cons_of fenceMarker '\n' (P ++ ['\n', '\x60', '\x60'])
      (fence_not_prefix_nl _) (no_fence_in_nlgg P hP)
  rw [show fenceMarker.dropLast = ['\x60', '\x60'] from rfl, List.cons_append,
    List.append_assoc]
  exact h

theorem no_fenceJson_in_wrapPlain (P : List Char) (hP : ¬ fenceMarker <:+: P) :
    ¬ fenceMarkerJson <:+: wrapPlainFence P := by
  have h0 := no_fenceJson_in_rest1 P hP
  have h1 := not_infix_cons_of fenceMarkerJson '\x60' _ (fenceJson_not_prefix_t1 _) h0
  have h2 := not_infix_cons_of fenceMarkerJson '\x60' _ (fenceJson_not_prefix_t2 _) h1
  have h3 := not_infix_cons_of fenceMarkerJson '\x60' _ (fenceJson_not_prefix_t3 _) h2
  rw [wrapPlainFence,
    show ("```\n".toList : List Char) = ['\x60', '\x60', '\x60', '\n'] from rfl,
    List.append_assoc]
  exact h3

theorem no_fenceJson_of_no_fence (s : List Char) (h : ¬ fenceMarker <:+: s) :
    ¬ fenceMarkerJson <:+: s := by
  intro hj
  exact h ((List.IsPrefix.isInfix (by decide : fenceMarker <+: fenceMarkerJson)).trans hj)

/-! ## Helper lemmas: the three presentation forms extract the same text -/

theorem extractJson_no_fence (s : List Char) (h : ¬ fenceMarker <:+: s) :
    extractJson s = s := by
  have h1 : ¬ containsSeq fenceMarkerJson s = true := by
    rw [containsSeq_iff]
    exact no_fenceJson_of_no_fence s h
  have h2 : ¬ containsSeq fenceMarker s = true := by
    rw [containsSeq_iff]
    exact h
  rw [extractJson, if_neg h1, if_neg h2]

theorem extractJson_wrapJson (P : List Char) (hP : ¬ fenceMarker <:+: P) :
    extractJson (wrapJsonFence P) = pyStrip P := by
  have hshape : wrapJsonFence P = fenceMarkerJson ++ ('\n' :: (P ++ "\n```".toList)) := by
    rw [wrapJsonFence,
      show ("```json\n".toList : List Char) = fenceMarkerJson ++ ['\n'] from rfl]
    simp [List.append_assoc]
  have hguard : containsSeq fenceMarkerJson (wrapJsonFence P) = true := by
    rw [containsSeq_iff, hshape]
    exact List.IsPrefix.isInfix (List.prefix_append _ _)
  have hshape2 : '\n' :: (P ++ "\n```".toList) =
      ('\n' :: (P ++ ['\n'])) ++ fenceMarker ++ [] := by
    simp [List.append_assoc]
    rfl
  have hsplit1 : pySplit fenceMarkerJson (wrapJsonFence P) =
      [[], '\n' :: (P ++ "\n```".toList)] := by
    rw [hshape, pySplit_append_sep _ (by decide),
      pySplit_no_sep _ _ (no_fenceJson_in_rest1 P hP)]
  have hsplit2 : pySplit fenceMarker ('\n' :: (P ++ "\n```".toList)) =
      [('\n' :: (P ++ ['\n'])), []] := by
    rw [hshape2, pySplit_mid fenceMarker (by decide) _ _ (no_fence_in_a2gg P hP)]
    rfl
  rw [extractJson, if_pos hguard, hsplit1]
  show pyStrip ((pySplit fenceMarker ('\n' :: (P ++ "\n```".toList))).getD 0 []) = pyStrip P
  rw [hsplit2]
  show pyStrip ('\n' :: (P ++ ['\n'])) = pyStrip P
  exact pyStrip_nl_ends P

theorem extractJson_wrapPlain (P : List Char) (hP : ¬ fenceMarker <:+: P) :
    extractJson (wrapPlainFence P) = pyStrip P := by
  have hguard1 : ¬ containsSeq fenceMarkerJson (wrapPlainFence P) = true := by
    rw [containsSeq_iff]
    exact no_fenceJson_in_wrapPlain P hP
  have hshape : wrapPlainFence P = fenceMarker ++ ('\n' :: (P ++ "\n```".toList)) := by
    rw [wrapPlainFence,
      show ("```\n".toList : List Char) = fenceMarker ++ ['\n'] from rfl]
    simp [List.append_assoc]
  have hguard2 : containsSeq fenceMarker (wrapPlainFence P) = true := by
    rw [containsSeq_iff, hshape]
    exact List.IsPrefix.isInfix (List.prefix_append _ _)
  have hshape2 : '\n' :: (P ++ "\n```".toList) =
      ('\n' :: (P ++ ['\n'])) ++ fenceMarker ++ [] := by
    simp [List.append_assoc]
    rfl
  have hsplit1 : pySplit fenceMarker (wrapPlainFence P) =
      [[], '\n' :: (P ++ ['\n']), []] := by
    rw [hshape, pySplit_append_sep _ (by decide), hshape2,
      pySplit_mid fenceMarker (by decide) _ _ (no_fence_in_a2gg P hP)]
    rfl
  rw [extractJson, if_neg hguard1, if_pos hguard2, hsplit1]
  show pyStrip ((pySplit fenceMarker ('\n' :: (P ++ ['\n']))).getD 0 []) = pyStrip P
  rw [pySplit_no_sep _ _ (no_fence_in_a2 P hP)]
  show pyStrip ('\n' :: (P ++ ['\n'])) = pyStrip P
  exact pyStrip_nl_ends P

theorem pyStrip_wrapJson (P : List Char) :
    pyStrip (wrapJsonFence P) = wrapJsonFence P := by
  have hshape : wrapJsonFence P =
      '\x60' :: (("``json\n".toList ++ (P ++ "\n``".toList)) ++ ['\x60']) := by
    rw [wrapJsonFence,
      show ("```json\n".toList : List Char) = '\x60' :: "``json\n".toList from rfl,
      show ("\n```".toList : List Char) = "\n``".toList ++ ['\x60'] from rfl]
    simp [List.append_assoc]
  rw [hshape, pyStrip_tick_ends]

theorem pyStrip_wrapPlain (P : List Char) :
    pyStrip (wrapPlainFence P) = wrapPlainFence P := by
  have hshape : wrapPlainFence P =
      '\x60' :: (("``\n".toList ++ (P ++ "\n``".toList)) ++ ['\x60']) := by
    rw [wrapPlainFence,
      show ("```\n".toList : List Char) = '\x60' :: "``\n".toList from rfl,
      show ("\n```".toList : List Char) = "\n``".toList ++ ['\x60'] from rfl]
    simp [List.append_assoc]
  rw [hshape, pyStrip_tick_ends]

/-! ## Helper lemmas: unfolding the service functions past the key test -/

theorem fetch_cons_eq (c : Char) (ks : List Char) (net : NewsOutcome) :
    fetch_headlines (c :: ks) net =
      match fetchCore net with
      | .ok hs => .ok hs
      | .error m => .error ⟨500, fetchFailPrefix ++ m⟩ := rfl

theorem analyze_reply_eq (c : Char) (ks : List Char) (t : List Char) (hs : List Headline) :
    analyze_with_claude (c :: ks) (.reply t) hs =
      match loadsE (extractJson (pyStrip t)) with
      | .error m => .error ⟨500, parseFailPrefix ++ m⟩
      | .ok v =>
        match ensureListThenTruncate v with
        | .ok r => .ok r
        | .error m => .error ⟨500, claudeFailPrefix ++ m⟩ := rfl

/-! ## Helper lemmas: the fetch refinement of claim C2 -/

theorem articleQualifies_eq_spec (fs : List (List Char × PyVal))
    (hstr : articleFieldsStrOrAbsent (.obj fs) = true) :
    articleQualifies fs = hasNonemptyTitleUrl (.obj fs) := by
  have hstr' : ((match lookupField fs titleKey with
      | none => true
      | some (.str _) => true
      | some _ => false) &&
      (match lookupField fs urlKey with
      | none => true
      | some (.str _) => true
      | some _ => false)) = true := hstr
  rw [Bool.and_eq_true] at hstr'
  obtain ⟨h1, h2⟩ := hstr'
  show (truthy ((lookupField fs titleKey).getD .null) &&
        truthy ((lookupField fs urlKey).getD .null)) =
      ((match lookupField fs titleKey with
        | some (.str s) => !s.isEmpty
        | _ => false) &&
       (match lookupField fs urlKey with
        | some (.str s) => !s.isEmpty
        | _ => false))
  cases ht : lookupField fs titleKey with
  | none => rfl
  | some v =>
    rw [ht] at h1
    cases v with
    | null => exact Bool.noConfusion h1
    | bool b => exact Bool.noConfusion h1
    | num lx => exact Bool.noConfusion h1
    | arr its => exact Bool.noConfusion h1
    | obj gs => exact Bool.noConfusion h1
    | str s =>
      cases hu : lookupField fs urlKey with
      | none => rfl
      | some w =>
        rw [hu] at h2
        cases w with
        | null => exact Bool.noConfusion h2
        | bool b => exact Bool.noConfusion h2
        | num lx => exact Bool.noConfusion h2
        | arr its => exact Bool.noConfusion h2
        | obj gs => exact Bool.noConfusion h2
        | str s2 => rfl

theorem buildHeadlines_spec (l : List PyVal) (hobj : l.all isObj = true)
    (hstr : l.all articleFieldsStrOrAbsent = true) :
    buildHeadlines l = .ok ((l.filter hasNonemptyTitleUrl).map headlineOf) := by
  induction l with
  | nil => rfl
  | cons a rest ih =>
    rw [List.all_cons, Bool.and_eq_true] at hobj hstr
    obtain ⟨ha, hrest⟩ := hobj
    obtain ⟨ha2, hrest2⟩ := hstr
    cases a with
    | null => simp [isObj] at ha
    | bool b => simp [isObj] at ha
    | num lx => simp [isObj] at ha
    | str cs => simp [isObj] at ha
    | arr its => simp [isObj] at ha
    | obj fs =>
      rw [List.filter_cons]
      rw [show buildHeadlines (PyVal.obj fs :: rest) =
        (if articleQualifies fs then
          (buildHeadlines rest).map (fun hs => mkHeadline fs :: hs)
        else buildHeadlines rest) from rfl]
      rw [articleQualifies_eq_spec fs ha2]
      by_cases hq : hasNonemptyTitleUrl (.obj fs) = true
      · rw [if_pos hq, if_pos hq, ih hrest hrest2]
        rfl
      · rw [if_neg hq, if_neg hq]
        exact ih hrest hrest2

/-! ## The claims -/

/-- C8: when `NEWS_API_KEY` is unset (empty), `fetch_headlines` returns
exactly the same fixed two-item sequence of Headline records on every
call, independent of any network state or outbound request behaviour. -/
theorem c8_fetch_sample_mode :
    ∀ net : NewsOutcome,
      fetch_headlines [] net = .ok sampleHeadlines ∧ sampleHeadlines.length = 2 :=
  fun _ => ⟨rfl, rfl⟩

/-- C9: when `ANTHROPIC_API_KEY` is unset (empty), `analyze_with_claude h`
returns exactly the same fixed one-item sequence of Insight records for
every input sequence `h`, without invoking the model API (the result does
not depend on the model outcome at all). -/
theorem c9_analyze_sample_mode :
    ∀ (outcome : ModelOutcome) (h : List Headline),
      analyze_with_claude [] outcome h = .ok (.arr [.obj sampleInsightFields]) :=
  fun _ _ => rfl

/-- C5: whenever `fetch_headlines` returns an empty sequence,
`POST /analyze` succeeds with an empty array, and the Analyzer is never
invoked: the result is the same for every model credential and every
model outcome. -/
theorem c5_empty_fetch_skips_analyzer (newsApiKey : List Char) (net : NewsOutcome)
    (h : fetch_headlines newsApiKey net = .ok []) :
    ∀ (anthropicApiKey : List Char) (outcome : ModelOutcome),
      analyzeRoute newsApiKey anthropicApiKey net outcome = .ok (.arr []) := by
  intro ak o
  unfold analyzeRoute
  rw [h]
  rfl

/-- Witness for C5 at a concrete configured key and simulated 200 response
with an empty articles list. -/
theorem c5_witness :
    fetch_headlines "k".toList (.response 200 emptyArticlesBody) = .ok [] ∧
    analyzeRoute "k".toList "a".toList (.response 200 emptyArticlesBody) (.apiError []) =
      .ok (.arr []) :=
  ⟨rfl, c5_empty_fetch_skips_analyzer "k".toList (.response 200 emptyArticlesBody) rfl
    "a".toList (.apiError [])⟩

/-- C6 counterexample: a simulated 304 response is not a success status,
yet `fetch_headlines` does not fail with a 500 — `raise_for_status` only
raises for 400-599, so the body is processed and the call returns `ok []`
rather than an error. -/
theorem c6_counterexample :
    (304 < 200 ∨ 299 < 304) ∧
    fetch_headlines "k".toList (.response 304 emptyArticlesBody) = .ok [] :=
  ⟨Or.inr (by decide), rfl⟩

/-- C6 (amended): with a credential configured, `fetch_headlines` fails
with a service error of status 500 embedding the underlying message
whenever the outbound request errors or times out, or the response status
is an HTTP error status (400-599, rather than every non-2xx status); and
`POST /analyze` propagates any such fetch error verbatim. -/
theorem c6_amended_error_500 (newsApiKey : List Char) (hk : newsApiKey ≠ []) :
    (∀ m, fetch_headlines newsApiKey (.failure m) =
      .error ⟨500, fetchFailPrefix ++ m⟩) ∧
    (∀ status body, 400 ≤ status → status < 600 →
      fetch_headlines newsApiKey (.response status body) =
        .error ⟨500, fetchFailPrefix ++ raiseForStatusMsg status⟩) ∧
    (∀ anthropicApiKey outcome net e,
      fetch_headlines newsApiKey net = .error e →
      analyzeRoute newsApiKey anthropicApiKey net outcome = .error e) := by
  obtain ⟨c, ks, rfl⟩ := List.exists_cons_of_ne_nil hk
  refine ⟨fun m => rfl, fun st body h1 h2 => ?_, fun ak o net e h => ?_⟩
  · have hstep : fetchCore (.response st body) =
        if 400 ≤ st ∧ st < 600 then Except.error (raiseForStatusMsg st)
        else
          match loadsE body with
          | .error m => .error m
          | .ok data =>
            match pyDictGetD data articlesKey (.arr []) with
            | .error m => .error m
            | .ok arts => processArticles arts := rfl
    rw [fetch_cons_eq, hstep, if_pos ⟨h1, h2⟩]
  · unfold analyzeRoute
    rw [h]

/-- Witness for C6 (amended) at concrete inputs: a failed request, a 500
status, and propagation through the route. -/
theorem c6_witness :
    fetch_headlines "k".toList (.failure "boom".toList) =
      .error ⟨500, fetchFailPrefix ++ "boom".toList⟩ ∧
    fetch_headlines "k".toList (.response 503 emptyArticlesBody) =
      .error ⟨500, fetchFailPrefix ++ raiseForStatusMsg 503⟩ ∧
    analyzeRoute "k".toList "a".toList (.failure "boom".toList) (.apiError []) =
      .error ⟨500, fetchFailPrefix ++ "boom".toList⟩ :=
  ⟨(c6_amended_error_500 "k".toList (by decide)).1 "boom".toList,
   (c6_amended_error_500 "k".toList (by decide)).2.1 503 emptyArticlesBody
     (by decide) (by decide),
   (c6_amended_error_500 "k".toList (by decide)).2.2 "a".toList (.apiError [])
     (.failure "boom".toList) ⟨500, fetchFailPrefix ++ "boom".toList⟩ rfl⟩

/-- C7 counterexample: an article whose description is JSON null yields a
Headline whose description is `None`, not a string — `get("description",
"")` only substitutes the default when the key is absent. -/
theorem c7_counterexample :
    fetch_headlines "k".toList (.response 200 bodyC7) =
      .ok [{ title := .str "t".toList, description := PyVal.null,
             url := .str "u".toList }] ∧
    PyVal.null ≠ PyVal.str [] :=
  ⟨rfl, fun h => PyVal.noConfusion h⟩

/-- C7 (amended): the description of a produced Headline defaults to the
empty string exactly when the article has no description key; a present
description value is passed through unchanged, so it need not be a
string (it is `None` for a JSON-null description). -/
theorem c7_amended_description_default :
    (∀ fs, lookupField fs descriptionKey = none →
      (mkHeadline fs).description = PyVal.str []) ∧
    (∀ fs v, lookupField fs descriptionKey = some v →
      (mkHeadline fs).description = v) := by
  constructor
  · intro fs h
    show (lookupField fs descriptionKey).getD (.str []) = PyVal.str []
    rw [h]
    rfl
  · intro fs v h
    show (lookupField fs descriptionKey).getD (.str []) = v
    rw [h]
    rfl

/-- Witness for C7 (amended) on concrete field lists. -/
theorem c7_witness :
    lookupField [(titleKey, PyVal.str "t".toList)] descriptionKey = none ∧
    (mkHeadline [(titleKey, PyVal.str "t".toList)]).description = PyVal.str [] ∧
    (mkHeadline [(descriptionKey, PyVal.null)]).description = PyVal.null :=
  ⟨rfl,
   c7_amended_description_default.1 [(titleKey, PyVal.str "t".toList)] rfl,
   c7_amended_description_default.2 [(descriptionKey, PyVal.null)] PyVal.null rfl⟩

/-- C4: with a credential configured, whenever the extracted text of the
model reply is not valid JSON, `analyze_with_claude` fails with a service
error of status 500 whose detail embeds the JSON-decode message after
the literal parse-failure prefix. -/
theorem c4_parse_error_maps_to_500 (key : List Char) (hk : key ≠ [])
    (t m : List Char) (h : loadsE (extractJson (pyStrip t)) = .error m)
    (hs : List Headline) :
    analyze_with_claude key (.reply t) hs = .error ⟨500, parseFailPrefix ++ m⟩ := by
  obtain ⟨c, ks, rfl⟩ := List.exists_cons_of_ne_nil hk
  rw [analyze_reply_eq, h]

/-- Witness for C4 on a reply that is not JSON. -/
theorem c4_witness :
    loadsE (extractJson (pyStrip "not json".toList)) = .error msgExpectingValue ∧
    analyze_with_claude "k".toList (.reply "not json".toList) [] =
      .error ⟨500, parseFailPrefix ++ msgExpectingValue⟩ :=
  ⟨rfl, c4_parse_error_maps_to_500 "k".toList (by decide) "not json".toList
    msgExpectingValue rfl []⟩

/-- C3: with a credential configured, when the extracted text parses to a
JSON array of K objects, `analyze_with_claude` returns exactly the first
five of them when K > 5, and all K of them, in order, when K ≤ 5. -/
theorem c3_truncates_to_five (key : List Char) (hk : key ≠ []) (t : List Char)
    (items : List PyVal) (h : loadsE (extractJson (pyStrip t)) = .ok (.arr items))
    (_hobj : items.all isObj = true) (hs : List Headline) :
    (5 < items.length →
      analyze_with_claude key (.reply t) hs = .ok (.arr (items.take 5)) ∧
      (items.take 5).length = 5) ∧
    (items.length ≤ 5 →
      analyze_with_claude key (.reply t) hs = .ok (.arr items)) := by
  obtain ⟨c, ks, rfl⟩ := List.exists_cons_of_ne_nil hk
  have hrun : analyze_with_claude (c :: ks) (.reply t) hs = .ok (.arr (items.take 5)) := by
    rw [analyze_reply_eq, h]
    rfl
  constructor
  · intro h5
    refine ⟨hrun, ?_⟩
    rw [List.length_take]
    omega
  · intro h5
    rw [hrun, List.take_of_length_le h5]

/-- Witness for C3 on a reply holding six empty objects. -/
theorem c3_witness :
    loadsE (extractJson (pyStrip arrSixObjs)) = .ok (.arr sixEmptyObjs) ∧
    sixEmptyObjs.all isObj = true ∧
    5 < sixEmptyObjs.length ∧
    analyze_with_claude "k".toList (.reply arrSixObjs) [] =
      .ok (.arr (sixEmptyObjs.take 5)) ∧
    (sixEmptyObjs.take 5).length = 5 :=
  ⟨rfl, rfl, by decide,
   ((c3_truncates_to_five "k".toList (by decide) arrSixObjs sixEmptyObjs rfl rfl []).1
     (by decide)).1,
   ((c3_truncates_to_five "k".toList (by decide) arrSixObjs sixEmptyObjs rfl rfl []).1
     (by decide)).2⟩

/-- C10: with a credential configured, when the extracted text parses to a
JSON string literal, `analyze_with_claude` raises no parse error and
returns the first five characters of that string — a value that is not a
sequence of records — while only a parsed single object is wrapped into a
one-element sequence. -/
theorem c10_string_slice (key : List Char) (hk : key ≠ []) (t cs : List Char)
    (h : loadsE (extractJson (pyStrip t)) = .ok (.str cs)) (hs : List Headline) :
    analyze_with_claude key (.reply t) hs = .ok (.str (cs.take 5)) ∧
    (∀ items : List PyVal, PyVal.str (cs.take 5) ≠ PyVal.arr items) ∧
    (∀ fs, ensureListThenTruncate (.obj fs) = .ok (.arr [PyVal.obj fs])) := by
  obtain ⟨c, ks, rfl⟩ := List.exists_cons_of_ne_nil hk
  refine ⟨?_, fun items hne => PyVal.noConfusion hne, fun fs => rfl⟩
  rw [analyze_reply_eq, h]
  rfl

/-- Witness for C10 on a string-literal reply. -/
theorem c10_witness :
    loadsE (extractJson (pyStrip strLiteralReply)) = .ok (.str "hello world".toList) ∧
    analyze_with_claude "k".toList (.reply strLiteralReply) [] =
      .ok (.str ("hello world".toList.take 5)) :=
  ⟨rfl, (c10_string_slice "k".toList (by decide) strLiteralReply
    "hello world".toList rfl []).1⟩

/-- C2: with a credential configured, for every simulated 200 news
response whose parsed body carries an articles list, `fetch_headlines`
returns exactly the articles among the first fifteen that have a
non-empty title and a non-empty url, mapped to Headline records in their
original relative order (truncation to fifteen happens before the
filter); the count M of returned records is the count of qualifying
articles among the first fifteen. -/
theorem c2_fetch_filters (newsApiKey : List Char) (hk : newsApiKey ≠ [])
    (body : List Char) (fields : List (List Char × PyVal)) (arts : List PyVal)
    (hbody : loadsE body = .ok (.obj fields))
    (harts : (lookupField fields articlesKey).getD (.arr []) = .arr arts)
    (hobj : (arts.take 15).all isObj = true)
    (hstr : (arts.take 15).all articleFieldsStrOrAbsent = true) :
    fetch_headlines newsApiKey (.response 200 body) = .ok (specHeadlines arts) ∧
    (specHeadlines arts).length = (arts.take 15).countP hasNonemptyTitleUrl := by
  obtain ⟨c, ks, rfl⟩ := List.exists_cons_of_ne_nil hk
  have hstep : fetchCore (.response 200 body) =
      if 400 ≤ 200 ∧ 200 < 600 then Except.error (raiseForStatusMsg 200)
      else
        match loadsE body with
        | .error m => .error m
        | .ok data =>
          match pyDictGetD data articlesKey (.arr []) with
          | .error m => .error m
          | .ok arts2 => processArticles arts2 := rfl
  have hcore : fetchCore (.response 200 body) = .ok (specHeadlines arts) := by
    rw [hstep, if_neg (by omega), hbody]
    show processArticles ((lookupField fields articlesKey).getD (.arr [])) =
      .ok (specHeadlines arts)
    rw [harts]
    show buildHeadlines (arts.take 15) = .ok (specHeadlines arts)
    exact buildHeadlines_spec _ hobj hstr
  constructor
  · rw [fetch_cons_eq, hcore]
  · rw [specHeadlines, List.length_map, List.countP_eq_length_filter]

/-- Witness for C2 on a concrete three-article body with one qualifying
article. -/
theorem c2_witness :
    loadsE bodyC2 = .ok (.obj fieldsC2) ∧
    fetch_headlines "k".toList (.response 200 bodyC2) = .ok (specHeadlines artsC2) ∧
    specHeadlines artsC2 =
      [{ title := .str "t1".toList, description := .str [], url := .str "u1".toList }] :=
  ⟨rfl,
   (c2_fetch_filters "k".toList (by decide) bodyC2 fieldsC2 artsC2 rfl rfl rfl rfl).1,
   rfl⟩

/-- C1 counterexample: for the payload `["a", "``` [1, 2] ```", "b"]` —
valid JSON whose middle string contains a fence marker — the raw
presentation succeeds (the mangled split extracts `[1, 2]`), while the
```json-fenced presentation fails with a parse error, so the two
presentations do not produce the same result. -/
theorem c1_counterexample :
    analyze_with_claude "k".toList (.reply cexPayloadC1) [] ≠
      analyze_with_claude "k".toList (.reply (wrapJsonFence cexPayloadC1)) [] := by
  intro h
  have h1 : analyze_with_claude "k".toList (.reply cexPayloadC1) [] =
      .ok (.arr [.num ['1'], .num ['2']]) := rfl
  have h2 : analyze_with_claude "k".toList (.reply (wrapJsonFence cexPayloadC1)) [] =
      .error ⟨500, parseFailPrefix ++ msgUnterminatedString⟩ := rfl
  rw [h1, h2] at h
  exact Except.noConfusion h

/-- C1 (amended): with a credential configured, for any payload text that
contains no occurrence of the generic fence marker (hence none of the
```json marker either), `analyze_with_claude` produces the same result
whether the model reply presents the payload raw, fenced in a ```json
block, or fenced in a generic ``` block — surrounding whitespace being
stripped after unwrapping in each form. -/
theorem c1_amended_fence_free (key : List Char) (hk : key ≠ []) (P : List Char)
    (hP : ¬ fenceMarker <:+: P) (hs : List Headline) :
    analyze_with_claude key (.reply (wrapJsonFence P)) hs =
      analyze_with_claude key (.reply P) hs ∧
    analyze_with_claude key (.reply (wrapPlainFence P)) hs =
      analyze_with_claude key (.reply P) hs := by
  obtain ⟨c, ks, rfl⟩ := List.exists_cons_of_ne_nil hk
  have hraw : extractJson (pyStrip P) = pyStrip P :=
    extractJson_no_fence _ (fun hf => hP (hf.trans (pyStrip_within P)))
  constructor
  · rw [analyze_reply_eq, analyze_reply_eq, pyStrip_wrapJson,
      extractJson_wrapJson P hP, hraw]
  · rw [analyze_reply_eq, analyze_reply_eq, pyStrip_wrapPlain,
      extractJson_wrapPlain P hP, hraw]

/-- Witness for C1 (amended) on the payload `[1, 2]`. -/
theorem c1_witness :
    (("k".toList : List Char) ≠ [] ∧ ¬ fenceMarker <:+: "[1, 2]".toList) ∧
    (analyze_with_claude "k".toList (.reply (wrapJsonFence "[1, 2]".toList)) [] =
       analyze_with_claude "k".toList (.reply "[1, 2]".toList) [] ∧
     analyze_with_claude "k".toList (.reply (wrapPlainFence "[1, 2]".toList)) [] =
       analyze_with_claude "k".toList (.reply "[1, 2]".toList) []) :=
  ⟨⟨by decide, by decide⟩,
   c1_amended_fence_free "k".toList (by decide) "[1, 2]".toList (by decide) []⟩
